import Mathlib

/-!
Verification of the conversational backend in `backend/server.py` and
`backend/resources.py`: per-session chat history persistence (local files or
S3, both storing `json.dumps(messages, indent=2)`), context assembly for the
Bedrock Converse call (last-20-turns window plus the system instruction), the
error paths of `call_bedrock`, the `/chat` and `/conversation/{session_id}`
endpoints, and the best-effort LinkedIn PDF text loader.

The embedding is shallow: each Python function becomes a Lean function over
explicit state.  External effects are inputs: the Bedrock call's outcome, the
two `datetime.now()` readings, and the freshly generated UUID are parameters
of `chat`; the filesystem and the S3 bucket are association lists from
path/key to the stored byte string.  Python exceptions become `Except PyExc`.
-/

namespace DigitalBot

/-- A Python exception as observed at the FastAPI boundary.
`httpException` is `fastapi.HTTPException`; the remaining constructors are
ordinary uncaught exceptions (`botocore` `ClientError`, `KeyError`,
`IndexError`, `TypeError`, `json` decode errors). -/
inductive PyExc where
  | httpException (status : Nat) (detail : String)
  | clientError (code : String) (msg : String)
  | keyError (key : String)
  | indexError
  | typeError
  | jsonDecodeError
  | pdfReadError (msg : String)
deriving DecidableEq, Repr

/-- Is the exception the uniform `HTTPException` kind raised by
`call_bedrock`'s `except ClientError` handler? -/
def PyExc.isHttpException : PyExc → Bool
  | .httpException _ _ => true
  | _ => false

/-- One persisted conversation turn: the dict
`{"role": ..., "content": ..., "timestamp": ...}` appended by `chat`. -/
structure Message where
  role : String
  content : String
  timestamp : String
deriving DecidableEq, Repr

/-! ## The serialized form: `json.dumps(messages, indent=2)`

`save_conversation` writes `json.dumps(messages, indent=2)` and
`load_conversation` reads it back with `json.load`/`json.loads`.  The encoder
below reproduces Python's output for a list of three-string-field dicts
character by character: `ensure_ascii=True` escaping (`\uXXXX` with lowercase
hex, surrogate pairs above U+FFFF, the shorthand escapes for `"`, `\`,
backspace, formfeed, newline, carriage return, tab; raw output only for
0x20..0x7E), two-space indentation, `", "`-free item separators (`,` then a
newline when indenting) and `": "` key separators. -/

/-- The opening-brace character, U+007B. -/
def lbrace : Char := Char.ofNat 123

/-- The closing-brace character, U+007D. -/
def rbrace : Char := Char.ofNat 125

/-- Lowercase hexadecimal digit character for `n < 16`, as Python's
`"%04x"` formatting produces. -/
def pyHexDig (n : Nat) : Char :=
  if n < 10 then Char.ofNat (48 + n) else Char.ofNat (87 + n)

/-- Four lowercase hex digits of `n < 0x10000`, most significant first. -/
def pyHex4 (n : Nat) : List Char :=
  [pyHexDig (n / 4096 % 16), pyHexDig (n / 256 % 16),
   pyHexDig (n / 16 % 16), pyHexDig (n % 16)]

/-- Python `json`'s `ensure_ascii` escaping of one character. -/
def pyEscapeChar (c : Char) : List Char :=
  if c = '"' then ['\\', '"']
  else if c = '\\' then ['\\', '\\']
  else if c = Char.ofNat 8 then ['\\', 'b']
  else if c = Char.ofNat 12 then ['\\', 'f']
  else if c = '\n' then ['\\', 'n']
  else if c = '\r' then ['\\', 'r']
  else if c = '\t' then ['\\', 't']
  else if 0x20 ≤ c.toNat ∧ c.toNat ≤ 0x7E then [c]
  else if c.toNat < 0x10000 then '\\' :: 'u' :: pyHex4 c.toNat
  else
    ('\\' :: 'u' :: pyHex4 (0xD800 + (c.toNat - 0x10000) / 0x400)) ++
    ('\\' :: 'u' :: pyHex4 (0xDC00 + (c.toNat - 0x10000) % 0x400))

/-- Escape every character of a string body. -/
def escBody : List Char → List Char
  | [] => []
  | c :: cs => pyEscapeChar c ++ escBody cs

/-- The characters `"role"`. -/
def roleKeyChars : List Char := ['r', 'o', 'l', 'e']

/-- The characters `"content"`. -/
def contentKeyChars : List Char := ['c', 'o', 'n', 't', 'e', 'n', 't']

/-- The characters `"timestamp"`. -/
def timestampKeyChars : List Char := ['t', 'i', 'm', 'e', 's', 't', 'a', 'm', 'p']

/-- One `"key": "value"` pair as `json.dumps` renders it (key, colon, space,
escaped string value). -/
def fieldChunk (key : List Char) (v : String) : List Char :=
  '"' :: key ++ '"' :: ':' :: ' ' :: '"' :: (escBody v.data ++ ['"'])

/-- The body of one rendered message dict after its opening brace: newline,
four-space field indents, the three fields in the order `chat` builds them,
closing brace at two-space indent. -/
def encAfterBrace (m : Message) : List Char :=
  ['\n', ' ', ' ', ' ', ' '] ++ fieldChunk roleKeyChars m.role
  ++ [',', '\n', ' ', ' ', ' ', ' '] ++ fieldChunk contentKeyChars m.content
  ++ [',', '\n', ' ', ' ', ' ', ' '] ++ fieldChunk timestampKeyChars m.timestamp
  ++ ['\n', ' ', ' ', rbrace]

/-- One message dict as `json.dumps(..., indent=2)` renders it inside the
list: two-space item indent, then the brace and the field body. -/
def encMessageChars (m : Message) : List Char :=
  ' ' :: ' ' :: lbrace :: encAfterBrace m

/-- The comma-newline separated item list. -/
def encItemsChars : List Message → List Char
  | [] => []
  | [m] => encMessageChars m
  | m :: ms => encMessageChars m ++ ',' :: '\n' :: encItemsChars ms

/-- Characters of `json.dumps(messages, indent=2)`: `[]` for the empty list,
otherwise the bracketed, newline-separated item list. -/
def dumpsChars (messages : List Message) : List Char :=
  match messages with
  | [] => ['[', ']']
  | _ => '[' :: '\n' :: (encItemsChars messages ++ ['\n', ']'])

/-- `json.dumps(messages, indent=2)` as a string. -/
def dumps (messages : List Message) : String := String.mk (dumpsChars messages)

/-! ## The parser: `json.loads` restricted to the persisted shape

`json.loads` parses full JSON; the stored logs are always a list of objects
with exactly the keys `role`, `content`, `timestamp` (in that order, as
`chat` builds them and `dumps` writes them) and string values.  The parser
below models `json.loads` on that sublanguage: JSON whitespace is skipped
wherever `json.loads` skips it, string escapes (including `\uXXXX` and
surrogate pairs, which `json.loads` recombines) are decoded, and trailing
data is rejected.  Inputs outside the sublanguage (other value types, other
keys or key orders, lone surrogate escapes) are rejected with `none` where
`json.loads` may instead build some other Python value; `load_conversation`
never reads such a value back from what `save_conversation` wrote. -/

/-- JSON whitespace (space, newline, tab, carriage return). -/
def isWsChar (c : Char) : Bool :=
  c == ' ' || c == '\n' || c == '\t' || c == '\r'

/-- Drop leading JSON whitespace. -/
def skipWs : List Char → List Char
  | [] => []
  | c :: cs => if isWsChar c then skipWs cs else c :: cs

/-- Value of one hexadecimal digit character (either case). -/
def hexDigitVal (c : Char) : Option Nat :=
  if 48 ≤ c.toNat ∧ c.toNat ≤ 57 then some (c.toNat - 48)
  else if 97 ≤ c.toNat ∧ c.toNat ≤ 102 then some (c.toNat - 87)
  else if 65 ≤ c.toNat ∧ c.toNat ≤ 70 then some (c.toNat - 55)
  else none

/-- Value of a four-hex-digit escape payload. -/
def hexNum4 (a b c d : Char) : Option Nat :=
  match hexDigitVal a, hexDigitVal b, hexDigitVal c, hexDigitVal d with
  | some va, some vb, some vc, some vd => some (((va * 16 + vb) * 16 + vc) * 16 + vd)
  | _, _, _, _ => none

/-- The single-character escapes `json.loads` accepts after a backslash
(other than `u`). -/
def unescapeChar (e : Char) : Option Char :=
  if e = '"' then some '"'
  else if e = '\\' then some '\\'
  else if e = '/' then some '/'
  else if e = 'b' then some (Char.ofNat 8)
  else if e = 'f' then some (Char.ofNat 12)
  else if e = 'n' then some '\n'
  else if e = 'r' then some '\r'
  else if e = 't' then some '\t'
  else none

/-- Decode the low-surrogate escape that must follow a high surrogate `n`,
recombining the pair into one scalar as `json.loads` does. -/
def decodeLowSurrogate (n : Nat) (cs : List Char) : Option (Char × List Char) :=
  match cs with
  | b1 :: u1 :: a2 :: b2 :: c2 :: d2 :: cs4 =>
    if b1 = '\\' ∧ u1 = 'u' then
      (hexNum4 a2 b2 c2 d2).bind (fun p =>
        if 0xDC00 ≤ p ∧ p ≤ 0xDFFF then
          some (Char.ofNat (0x10000 + (n - 0xD800) * 0x400 + (p - 0xDC00)), cs4)
        else none)
    else none
  | _ => none

/-- Decode a `\uXXXX` escape payload (the part after `\u`).  A lone
surrogate escape is rejected: it decodes to a value no Lean `Char` can
carry, and `dumps` never writes one. -/
def decodeUEscape (cs : List Char) : Option (Char × List Char) :=
  match cs with
  | a :: b :: c :: d :: cs3 =>
    (hexNum4 a b c d).bind (fun n =>
      if 0xD800 ≤ n ∧ n ≤ 0xDBFF then decodeLowSurrogate n cs3
      else if 0xDC00 ≤ n ∧ n ≤ 0xDFFF then none
      else some (Char.ofNat n, cs3))
  | _ => none

/-- Decode one escape sequence after the backslash. -/
def decodeEscape (cs : List Char) : Option (Char × List Char) :=
  match cs with
  | [] => none
  | e :: cs2 =>
    if e = 'u' then decodeUEscape cs2
    else (unescapeChar e).map (fun ch => (ch, cs2))

/-- One scan step inside a JSON string: the closing quote, one decoded
character, or a lexical error. -/
inductive StrTok where
  | close (rest : List Char)
  | chr (c : Char) (rest : List Char)
  | bad

/-- Scan one token of a JSON string body: a closing quote ends it, a
backslash starts an escape, raw control characters are rejected
(`json.loads` default `strict=True`). -/
def strTok (cs : List Char) : StrTok :=
  match cs with
  | [] => .bad
  | c :: cs =>
    if c = '"' then .close cs
    else if c = '\\' then
      match decodeEscape cs with
      | some (ch, r) => .chr ch r
      | none => .bad
    else if c.toNat < 0x20 then .bad
    else .chr c cs

/-- Parse a JSON string body after the opening quote, returning the decoded
characters and the remainder after the closing quote.  `fuel` only bounds
the recursion; each step consumes at least one character, so the caller's
`length + 1` is always enough. -/
def parseStrBodyF : Nat → List Char → Option (List Char × List Char)
  | 0, _ => none
  | fuel + 1, cs =>
    match strTok cs with
    | .close rest => some ([], rest)
    | .chr c rest => (parseStrBodyF fuel rest).map (fun q => (c :: q.1, q.2))
    | .bad => none

/-- Parse a JSON string body after the opening quote. -/
def parseStrBody (cs : List Char) : Option (List Char × List Char) :=
  parseStrBodyF (cs.length + 1) cs

/-- Skip whitespace, then demand the character `c`, returning the remainder. -/
def expectChar (c : Char) (cs : List Char) : Option (List Char) :=
  match skipWs cs with
  | [] => none
  | x :: r => if x = c then some r else none

/-- Parse one `"key": "value"` pair whose key must be `key`, returning the
decoded value characters and the remainder. -/
def parseFieldVal (key : List Char) (cs : List Char) : Option (List Char × List Char) :=
  (expectChar '"' cs).bind (fun r =>
  (parseStrBody r).bind (fun kr =>
  if kr.1 = key then
    (expectChar ':' kr.2).bind (fun r2 =>
    (expectChar '"' r2).bind (fun r3 =>
    parseStrBody r3))
  else none))

/-- Parse one message object `{"role": ..., "content": ..., "timestamp": ...}`
(the key order `save_conversation` always writes). -/
def parseMessageObj (cs : List Char) : Option (Message × List Char) :=
  (expectChar lbrace cs).bind (fun r =>
  (parseFieldVal roleKeyChars r).bind (fun rv =>
  (expectChar ',' rv.2).bind (fun r2 =>
  (parseFieldVal contentKeyChars r2).bind (fun cv =>
  (expectChar ',' cv.2).bind (fun r4 =>
  (parseFieldVal timestampKeyChars r4).bind (fun tv =>
  (expectChar rbrace tv.2).map (fun r6 =>
  (⟨String.mk rv.1, String.mk cv.1, String.mk tv.1⟩, r6))))))))

/-- Parse one or more comma-separated message objects up to the closing
bracket.  `fuel` only bounds the recursion; the caller passes more fuel than
the input could ever consume. -/
def parseItems : Nat → List Char → Option (List Message × List Char)
  | 0, _ => none
  | fuel + 1, cs =>
    (parseMessageObj cs).bind (fun mr =>
      match skipWs mr.2 with
      | [] => none
      | c :: r1 =>
        if c = ',' then (parseItems fuel r1).map (fun p => (mr.1 :: p.1, p.2))
        else if c = ']' then some ([mr.1], r1)
        else none)

/-- After the opening bracket: an immediately closing bracket yields the
empty list, anything else must be the item list; nothing but whitespace may
follow the closing bracket. -/
def parseDocTail (fuel : Nat) (cs : List Char) : Option (List Message) :=
  match skipWs cs with
  | [] => none
  | c2 :: r2 =>
    if c2 = ']' then (if skipWs r2 = [] then some [] else none)
    else
      (parseItems fuel (c2 :: r2)).bind (fun msr =>
        if skipWs msr.2 = [] then some msr.1 else none)

/-- Parse a whole persisted document: a JSON list of message objects with
nothing but whitespace after it. -/
def parseDoc (cs : List Char) : Option (List Message) :=
  (expectChar '[' cs).bind (fun r => parseDocTail (cs.length + 1) r)

/-- `json.loads` on a persisted conversation document. -/
def loads (s : String) : Option (List Message) := parseDoc s.data

/-! ## Memory helpers: `get_memory_path`, `load_conversation`, `save_conversation`

The process state carries the `USE_S3` flag and both stores as association
lists from path/key to stored byte string (the newest binding is first, so
`List.lookup` sees the latest write, matching file overwrite and S3 object
replacement). -/

/-- The `MEMORY_DIR` environment default from `server.py`. -/
def MEMORY_DIR : String := "../memory"

/-- `get_memory_path`: the per-session file/key name. -/
def get_memory_path (session_id : String) : String := session_id ++ ".json"

/-- `os.path.join(MEMORY_DIR, get_memory_path(session_id))` for the usual
case of a relative second component. -/
def local_file_path (session_id : String) : String :=
  MEMORY_DIR ++ "/" ++ get_memory_path session_id

/-- The mutable world visible to the memory helpers: backend selection plus
the two stores. -/
structure ServerState where
  useS3 : Bool
  s3 : List (String × String)
  files : List (String × String)
deriving DecidableEq, Repr

/-- Overwrite the binding for `k` (the new binding shadows older ones for
`List.lookup`, as a file rewrite or S3 object put does). -/
def storePut (k v : String) (store : List (String × String)) : List (String × String) :=
  (k, v) :: store

/-- `s3_client.get_object`: the stored body, or a `ClientError` with code
`NoSuchKey` when the key was never written. -/
def s3_get_object (s3 : List (String × String)) (key : String) :
    Except (String × String) String :=
  match s3.lookup key with
  | some body => .ok body
  | none => .error ("NoSuchKey", "The specified key does not exist.")

/-- `load_conversation`: read and parse the session's log.  S3 variant:
`get_object`, swallowing only `NoSuchKey` into `[]`; local variant: read the
file if it exists, else `[]`.  A stored value `json.load` cannot parse as a
message list raises. -/
def load_conversation (st : ServerState) (session_id : String) :
    Except PyExc (List Message) :=
  if st.useS3 then
    match s3_get_object st.s3 (get_memory_path session_id) with
    | .ok body =>
      match loads body with
      | some messages => .ok messages
      | none => .error .jsonDecodeError
    | .error e =>
      if e.1 = "NoSuchKey" then .ok []
      else .error (.clientError e.1 e.2)
  else
    match st.files.lookup (local_file_path session_id) with
    | some contents =>
      match loads contents with
      | some messages => .ok messages
      | none => .error .jsonDecodeError
    | none => .ok []

/-- `save_conversation`: serialize with `json.dumps(messages, indent=2)` and
replace the session's stored object/file. -/
def save_conversation (st : ServerState) (session_id : String)
    (messages : List Message) : ServerState :=
  if st.useS3 then
    { st with s3 := storePut (get_memory_path session_id) (dumps messages) st.s3 }
  else
    { st with files := storePut (local_file_path session_id) (dumps messages) st.files }

/-! ## Bedrock wrapper: `call_bedrock` -/

/-- A JSON-like value as returned by `bedrock_client.converse` (enough of
Python's data model for the reply extraction `response["output"]["message"]
["content"][0]["text"]` and its failure modes). -/
inductive JVal where
  | str (s : String)
  | num (n : Int)
  | bool (b : Bool)
  | null
  | arr (xs : List JVal)
  | obj (fields : List (String × JVal))

/-- Python `d[k]` on a converse-response value: field of a dict, else
`KeyError`/`TypeError`. -/
def jGet (v : JVal) (k : String) : Except PyExc JVal :=
  match v with
  | .obj fields =>
    match fields.lookup k with
    | some x => .ok x
    | none => .error (.keyError k)
  | _ => .error .typeError

/-- Python `l[i]` on a converse-response value: element of a list, else
`IndexError`/`TypeError`. -/
def jIndex (v : JVal) (i : Nat) : Except PyExc JVal :=
  match v with
  | .arr xs =>
    match xs.get? i with
    | some x => .ok x
    | none => .error .indexError
  | _ => .error .typeError

/-- The extracted reply must be a string to flow into `ChatResponse`. -/
def jAsString (v : JVal) : Except PyExc String :=
  match v with
  | .str s => .ok s
  | _ => .error .typeError

/-- `response["output"]["message"]["content"][0]["text"]`: each failing
subscript raises its own exception, which nothing downstream converts. -/
def extract_reply (response : JVal) : Except PyExc String :=
  match jGet response "output" with
  | .error e => .error e
  | .ok o =>
    match jGet o "message" with
    | .error e => .error e
    | .ok m =>
      match jGet m "content" with
      | .error e => .error e
      | .ok c =>
        match jIndex c 0 with
        | .error e => .error e
        | .ok b =>
          match jGet b "text" with
          | .error e => .error e
          | .ok t => jAsString t

/-- Modelled from the spec: `prompt()` from the repository's `context`
module (not under `src/`), the system instruction derived from the Persona
Configuration.  Its text is opaque to every claim here; a fixed stand-in
constant models "recomputed deterministically on every call". -/
def prompt : String := "system instruction"

/-- One entry of the `messages` argument of `bedrock_client.converse`: a
role with content blocks `[{"text": ...}]`, each block modelled by its text. -/
structure NovaMessage where
  role : String
  content : List String
deriving DecidableEq, Repr

/-- The `messages` list `call_bedrock` builds: the last 20 history turns in
stored (oldest-first) order — Python `conversation[-20:]` — then the new
user message. -/
def converse_messages (conversation : List Message) (user_message : String) :
    List NovaMessage :=
  (conversation.drop (conversation.length - 20)).map
    (fun msg => ⟨msg.role, [msg.content]⟩)
  ++ [⟨"user", [user_message]⟩]

/-- One entry of the assembled model request: the system instruction (passed
via the separate `system` parameter) or one message. -/
inductive RequestEntry where
  | system (text : String)
  | msg (m : NovaMessage)
deriving DecidableEq, Repr

/-- The whole assembled request, flattened for counting: the system
instruction `[{"text": prompt()}]` followed by the `messages` list. -/
def assembled_request (conversation : List Message) (user_message : String) :
    List RequestEntry :=
  .system prompt :: (converse_messages conversation user_message).map .msg

/-- The fixed `inferenceConfig` of the converse call.  The floats 0.7 and
0.9 are carried as rationals. -/
structure InferenceConfig where
  maxTokens : Nat
  temperature : ℚ
  topP : ℚ
deriving DecidableEq, Repr

/-- `inferenceConfig={"maxTokens": 2000, "temperature": 0.7, "topP": 0.9}`. -/
def bedrock_inference_config : InferenceConfig := ⟨2000, 7 / 10, 9 / 10⟩

/-- The outcome of the external `bedrock_client.converse` network call: a
`botocore` `ClientError` (auth, quota, service errors) or a response value. -/
inductive ConverseResult where
  | clientError (code : String) (msg : String)
  | success (response : JVal)

/-- Python `str(e)` for a `botocore` `ClientError`. -/
def clientErrorStr (code msg : String) : String :=
  "An error occurred (" ++ code ++ ") when calling the Converse operation: " ++ msg

/-- `call_bedrock`: build the windowed `messages`, invoke the model (its
outcome is the `result` parameter), extract the reply text.  Only
`ClientError` is caught and re-raised as `HTTPException(500, str(e))`; an
extraction failure on a malformed response propagates as its own exception. -/
def call_bedrock (conversation : List Message) (user_message : String)
    (result : ConverseResult) : Except PyExc String :=
  let _messages := converse_messages conversation user_message
  match result with
  | .clientError code msg => .error (.httpException 500 (clientErrorStr code msg))
  | .success response => extract_reply response

/-! ## API routes: `chat`, `get_conversation` -/

/-- The validated `/chat` request body. -/
structure ChatRequest where
  message : String
  session_id : Option String
deriving DecidableEq, Repr

/-- Pydantic validation of the inbound body: `message: str` is required
(any string, including the empty one, passes), `session_id: Optional[str] =
None`. -/
def mkChatRequest (message : Option String) (session_id : Option String) :
    Option ChatRequest :=
  match message with
  | some m => some ⟨m, session_id⟩
  | none => none

/-- The `/chat` response body. -/
structure ChatResponse where
  response : String
  session_id : String
deriving DecidableEq, Repr

/-- `request.session_id or str(uuid.uuid4())`: `None` and the empty string
are falsy, so both select the freshly generated id. -/
def resolve_session_id (request : ChatRequest) (freshId : String) : String :=
  match request.session_id with
  | some s => if s = "" then freshId else s
  | none => freshId

/-- The `/chat` handler for one turn.  `freshId` is the UUID that
`str(uuid.uuid4())` would produce, `result` the converse outcome, `t1` and
`t2` the two `datetime.now().isoformat()` readings.  Returns the response or
the propagated exception, together with the post-call state. -/
def chat (st : ServerState) (request : ChatRequest) (freshId : String)
    (result : ConverseResult) (t1 t2 : String) :
    Except PyExc ChatResponse × ServerState :=
  match load_conversation st (resolve_session_id request freshId) with
  | .error e => (.error e, st)
  | .ok conversation =>
    match call_bedrock conversation request.message result with
    | .error e => (.error e, st)
    | .ok assistant_reply =>
      (.ok ⟨assistant_reply, resolve_session_id request freshId⟩,
       save_conversation st (resolve_session_id request freshId)
         (conversation ++ [⟨"user", request.message, t1⟩,
                           ⟨"assistant", assistant_reply, t2⟩]))

/-- The `/conversation/{session_id}` response body. -/
structure ConversationView where
  session_id : String
  messages : List Message
deriving DecidableEq, Repr

/-- The `/conversation/{session_id}` handler: the full stored log, with a
load failure propagating. -/
def get_conversation (st : ServerState) (session_id : String) :
    Except PyExc ConversationView :=
  match load_conversation st session_id with
  | .ok messages => .ok ⟨session_id, messages⟩
  | .error e => .error e

/-! ## `resources.py`: `load_linkedin_text` -/

/-- One page's `page.extract_text()` outcome: an exception (swallowed by the
inner handler) or a text (`""` also models `None`, both falsy in the
`if text:` guard). -/
inductive PageOutcome where
  | raised (msg : String)
  | extracted (text : String)
deriving DecidableEq, Repr

/-- The page loop of `load_linkedin_text`: concatenate each page's text,
skipping pages whose extraction raised and falsy (empty) texts. -/
def extract_pages_text (pages : List PageOutcome) : String :=
  pages.foldl (fun acc p =>
    match p with
    | .raised _ => acc
    | .extracted t => if t = "" then acc else acc ++ t) ""

/-- The outcome of `PdfReader("./data/linkedin.pdf")` together with the
resolution of `reader.pages`, both inside the outer `try`: the file may be
missing (`FileNotFoundError`); the reader may fail in any other way — a
corrupt or empty file raises `PdfReadError`/`EmptyFileError`, an unreadable
one `PermissionError`, none of which is a `FileNotFoundError` (the `msg`
carries the exception's text); or it yields the pages with their per-page
`extract_text()` outcomes. -/
inductive PdfOutcome where
  | fileNotFound
  | readError (msg : String)
  | pages (ps : List PageOutcome)
deriving DecidableEq, Repr

/-- `load_linkedin_text`: the outer handler catches only
`FileNotFoundError` (placeholder); any other reader failure propagates
uncaught — and, since `resources.py` runs `linkedin = load_linkedin_text()`
at module scope, aborts startup at import.  With pages in hand, the loop
concatenates the readable texts and an overall falsy result degrades to the
unreadable-text placeholder. -/
def load_linkedin_text (pdf : PdfOutcome) : Except PyExc String :=
  match pdf with
  | .fileNotFound => .ok "LinkedIn profile not available"
  | .readError msg => .error (.pdfReadError msg)
  | .pages ps =>
    let linkedin_text := extract_pages_text ps
    .ok (if linkedin_text = "" then "LinkedIn PDF contains unreadable text." else linkedin_text)

/-! ## Claim-statement vocabulary and concrete fixtures -/

/-- Timestamps never decrease along the log (ISO-8601 strings compare
chronologically via their lexicographic order). -/
def Chronological (log : List Message) : Prop :=
  log.Chain' (fun a b => a.timestamp ≤ b.timestamp)

/-- A well-formed converse response carrying the reply `text`. -/
def novaResponse (text : String) : JVal :=
  .obj [("output", .obj [("message", .obj [("content",
    .arr [.obj [("text", .str text)]])])])]

/-- The local-variant process state before any write. -/
def emptyLocalState : ServerState := ⟨false, [], []⟩

/-- A 25-turn stored log, for the windowing fixture. -/
def testLog : List Message := List.replicate 25 ⟨"user", "earlier", "t0"⟩

/-! ## Round-trip of the serialized form

`parseDoc (dumps messages) = some messages` for every message list: what
`save_conversation` writes, `load_conversation` reads back exactly. -/

theorem hexDigitVal_pyHexDig : ∀ k, k < 16 → hexDigitVal (pyHexDig k) = some k := by decide

theorem hexNum4_pyHex4 (n : Nat) (h : n < 65536) :
    hexNum4 (pyHexDig (n / 4096 % 16)) (pyHexDig (n / 256 % 16))
      (pyHexDig (n / 16 % 16)) (pyHexDig (n % 16)) = some n := by
  rw [hexNum4, hexDigitVal_pyHexDig _ (by omega), hexDigitVal_pyHexDig _ (by omega),
    hexDigitVal_pyHexDig _ (by omega), hexDigitVal_pyHexDig _ (by omega)]
  have h2 : ((n / 4096 % 16 * 16 + n / 256 % 16) * 16 + n / 16 % 16) * 16 + n % 16 = n := by
    omega
  exact congrArg some h2

theorem char_valid_nat (c : Char) :
    c.toNat < 0xD800 ∨ (0xDFFF < c.toNat ∧ c.toNat < 0x110000) :=
  c.valid

/-- Every character is escaped either to itself (with the side conditions
the string scanner needs) or to a backslash escape that `decodeEscape`
decodes back to it. -/
theorem escape_cases (c : Char) :
    (pyEscapeChar c = [c] ∧ c ≠ '"' ∧ c ≠ '\\' ∧ ¬ c.toNat < 0x20)
    ∨ (∃ es, pyEscapeChar c = '\\' :: es
        ∧ ∀ rest, decodeEscape (es ++ rest) = some (c, rest)) := by
  by_cases h1 : c = '"'
  · subst h1; exact .inr ⟨['"'], rfl, fun rest => rfl⟩
  by_cases h2 : c = '\\'
  · subst h2; exact .inr ⟨['\\'], rfl, fun rest => rfl⟩
  by_cases h3 : c = Char.ofNat 8
  · subst h3; exact .inr ⟨['b'], rfl, fun rest => rfl⟩
  by_cases h4 : c = Char.ofNat 12
  · subst h4; exact .inr ⟨['f'], rfl, fun rest => rfl⟩
  by_cases h5 : c = '\n'
  · subst h5; exact .inr ⟨['n'], rfl, fun rest => rfl⟩
  by_cases h6 : c = '\r'
  · subst h6; exact .inr ⟨['r'], rfl, fun rest => rfl⟩
  by_cases h7 : c = '\t'
  · subst h7; exact .inr ⟨['t'], rfl, fun rest => rfl⟩
  by_cases h8 : 0x20 ≤ c.toNat ∧ c.toNat ≤ 0x7E
  · refine .inl ⟨?_, h1, h2, by omega⟩
    simp only [pyEscapeChar, if_neg h1, if_neg h2, if_neg h3, if_neg h4, if_neg h5, if_neg h6,
      if_neg h7, if_pos h8]
  by_cases h9 : c.toNat < 0x10000
  · refine .inr ⟨'u' :: pyHex4 c.toNat, ?_, ?_⟩
    · simp only [pyEscapeChar, if_neg h1, if_neg h2, if_neg h3, if_neg h4, if_neg h5, if_neg h6,
        if_neg h7, if_neg h8, if_pos h9]
    · intro rest
      have hval := char_valid_nat c
      have hs1 : ¬ (0xD800 ≤ c.toNat ∧ c.toNat ≤ 0xDBFF) := by omega
      have hs2 : ¬ (0xDC00 ≤ c.toNat ∧ c.toNat ≤ 0xDFFF) := by omega
      show decodeUEscape (pyHex4 c.toNat ++ rest) = some (c, rest)
      simp only [pyHex4, List.cons_append, List.nil_append, decodeUEscape]
      rw [hexNum4_pyHex4 c.toNat (by omega), Option.some_bind, if_neg hs1, if_neg hs2,
        Char.ofNat_toNat]
  · have hval := char_valid_nat c
    have hhiN : 0xD800 + (c.toNat - 0x10000) / 0x400 < 65536 := by omega
    have hloN : 0xDC00 + (c.toNat - 0x10000) % 0x400 < 65536 := by omega
    refine .inr ⟨'u' :: pyHex4 (0xD800 + (c.toNat - 0x10000) / 0x400)
        ++ '\\' :: 'u' :: pyHex4 (0xDC00 + (c.toNat - 0x10000) % 0x400), ?_, ?_⟩
    · simp only [pyEscapeChar, if_neg h1, if_neg h2, if_neg h3, if_neg h4, if_neg h5, if_neg h6,
        if_neg h7, if_neg h8, if_neg h9, List.cons_append, List.append_assoc]
    · intro rest
      have hhi : 0xD800 ≤ 0xD800 + (c.toNat - 0x10000) / 0x400
          ∧ 0xD800 + (c.toNat - 0x10000) / 0x400 ≤ 0xDBFF := by
        constructor
        · omega
        · have hq : (c.toNat - 0x10000) / 0x400 ≤ 0x3FF := by omega
          omega
      have hlo : 0xDC00 ≤ 0xDC00 + (c.toNat - 0x10000) % 0x400
          ∧ 0xDC00 + (c.toNat - 0x10000) % 0x400 ≤ 0xDFFF := by omega
      show decodeUEscape ((pyHex4 (0xD800 + (c.toNat - 0x10000) / 0x400)
        ++ '\\' :: 'u' :: pyHex4 (0xDC00 + (c.toNat - 0x10000) % 0x400)) ++ rest)
        = some (c, rest)
      simp only [pyHex4, List.cons_append, List.nil_append, List.append_assoc, decodeUEscape]
      rw [hexNum4_pyHex4 _ hhiN, Option.some_bind, if_pos hhi]
      show decodeLowSurrogate (0xD800 + (c.toNat - 0x10000) / 0x400)
          (('\\' : Char) :: 'u' :: pyHex4 (0xDC00 + (c.toNat - 0x10000) % 0x400) ++ rest)
          = some (c, rest)
      simp only [pyHex4, List.cons_append, List.nil_append, decodeLowSurrogate]
      simp only [and_self, if_true]
      rw [hexNum4_pyHex4 _ hloN, Option.some_bind, if_pos hlo]
      have harith : 0x10000 + (0xD800 + (c.toNat - 0x10000) / 0x400 - 0xD800) * 0x400
          + (0xDC00 + (c.toNat - 0x10000) % 0x400 - 0xDC00) = c.toNat := by omega
      rw [harith, Char.ofNat_toNat]

/-- Scanning a rendered character from the front of the input yields exactly
that character. -/
theorem strTok_enc (c : Char) (rest : List Char) :
    strTok (pyEscapeChar c ++ rest) = .chr c rest := by
  rcases escape_cases c with ⟨hpe, hq, hb, hc⟩ | ⟨es, hpe, hdec⟩
  · rw [hpe, List.cons_append, List.nil_append]
    simp only [strTok, if_neg hq, if_neg hb, if_neg hc]
  · rw [hpe, List.cons_append]
    show (match decodeEscape (es ++ rest) with
      | some (ch, r) => StrTok.chr ch r
      | none => StrTok.bad) = StrTok.chr c rest
    rw [hdec rest]

theorem parseStrBodyF_enc (s : List Char) : ∀ (fuel : Nat) (rest : List Char),
    s.length < fuel → parseStrBodyF fuel (escBody s ++ '"' :: rest) = some (s, rest) := by
  induction s with
  | nil =>
    intro fuel rest h
    obtain ⟨f, rfl⟩ : ∃ f, fuel = f + 1 := ⟨fuel - 1, by omega⟩
    rfl
  | cons c s ih =>
    intro fuel rest h
    obtain ⟨f, rfl⟩ : ∃ f, fuel = f + 1 := ⟨fuel - 1, by omega⟩
    have hsplit : escBody (c :: s) ++ '"' :: rest
        = pyEscapeChar c ++ (escBody s ++ '"' :: rest) := by
      simp [escBody, List.append_assoc]
    rw [hsplit]
    show (match strTok (pyEscapeChar c ++ (escBody s ++ '"' :: rest)) with
      | .close r => some (([] : List Char), r)
      | .chr ch r => (parseStrBodyF f r).map (fun q => (ch :: q.1, q.2))
      | .bad => none) = some (c :: s, rest)
    rw [strTok_enc]
    show (parseStrBodyF f (escBody s ++ '"' :: rest)).map (fun q => (c :: q.1, q.2))
        = some (c :: s, rest)
    rw [ih f rest (by simp at h; omega)]
    rfl

theorem escBody_length (s : List Char) : s.length ≤ (escBody s).length := by
  induction s with
  | nil => simp [escBody]
  | cons c s ih =>
    rcases escape_cases c with ⟨hpe, _⟩ | ⟨es, hpe, _⟩ <;>
      simp [escBody, hpe, List.length_append] <;> omega

/-- The string round-trip: parsing a rendered string body recovers it. -/
theorem parseStrBody_enc (s : List Char) (rest : List Char) :
    parseStrBody (escBody s ++ '"' :: rest) = some (s, rest) := by
  apply parseStrBodyF_enc
  have h := escBody_length s
  simp only [List.length_append, List.length_cons]
  omega

theorem skipWs_cons_of_ws {c : Char} (cs : List Char) (h : isWsChar c = true) :
    skipWs (c :: cs) = skipWs cs := by
  simp [skipWs, h]

theorem skipWs_cons_of_not {c : Char} (cs : List Char) (h : isWsChar c = false) :
    skipWs (c :: cs) = c :: cs := by
  simp [skipWs, h]

theorem skipWs_append_ws (ws cs : List Char) (h : ∀ x ∈ ws, isWsChar x = true) :
    skipWs (ws ++ cs) = skipWs cs := by
  induction ws with
  | nil => rfl
  | cons c ws ih =>
    rw [List.cons_append, skipWs_cons_of_ws _ (h c (by simp))]
    exact ih (fun x hx => h x (by simp [hx]))

theorem skipWs_skipWs (cs : List Char) : skipWs (skipWs cs) = skipWs cs := by
  induction cs with
  | nil => rfl
  | cons c cs ih =>
    by_cases h : isWsChar c = true
    · rw [skipWs_cons_of_ws _ h]; exact ih
    · rw [skipWs_cons_of_not _ (by simpa using h), skipWs_cons_of_not _ (by simpa using h)]

theorem expectChar_spec (c : Char) (hc : isWsChar c = false) (ws cs : List Char)
    (hws : ∀ x ∈ ws, isWsChar x = true) : expectChar c (ws ++ c :: cs) = some cs := by
  simp only [expectChar, skipWs_append_ws ws _ hws, skipWs_cons_of_not _ hc]
  simp

theorem expectChar_cons (c : Char) (hc : isWsChar c = false) (cs : List Char) :
    expectChar c (c :: cs) = some cs :=
  expectChar_spec c hc [] cs (by simp)

theorem expectChar_skipWs (c : Char) (cs : List Char) :
    expectChar c (skipWs cs) = expectChar c cs := by
  simp only [expectChar, skipWs_skipWs]

/-- Field round-trip: parsing a rendered `"key": "value"` chunk (after any
leading whitespace) recovers the value. -/
theorem parseFieldVal_enc (key : List Char) (hkey : escBody key = key) (v : String)
    (ws rest : List Char) (hws : ∀ x ∈ ws, isWsChar x = true) :
    parseFieldVal key (ws ++ fieldChunk key v ++ rest) = some (v.data, rest) := by
  have hshape : ws ++ fieldChunk key v ++ rest
      = ws ++ '"' :: (escBody key
          ++ '"' :: (':' :: ' ' :: '"' :: (escBody v.data ++ '"' :: rest))) := by
    rw [hkey]; simp [fieldChunk, List.append_assoc]
  unfold parseFieldVal
  rw [hshape, expectChar_spec '"' (by decide) ws _ hws, Option.some_bind, parseStrBody_enc]
  rw [Option.some_bind]
  simp only [if_pos (rfl : key = key)]
  rw [expectChar_cons ':' (by decide), Option.some_bind]
  have hsp : (' ' :: '"' :: (escBody v.data ++ '"' :: rest) : List Char)
      = [' '] ++ '"' :: (escBody v.data ++ '"' :: rest) := rfl
  rw [hsp, expectChar_spec '"' (by decide) [' '] _ (by decide), Option.some_bind,
    parseStrBody_enc]
  simp only [if_true]

/-- Object round-trip: parsing a rendered message dict recovers it. -/
theorem parseMessageObj_enc (m : Message) (rest : List Char) :
    parseMessageObj (encMessageChars m ++ rest) = some (m, rest) := by
  unfold parseMessageObj
  have h0 : encMessageChars m ++ rest = [' ', ' '] ++ lbrace :: (encAfterBrace m ++ rest) := by
    simp [encMessageChars]
  rw [h0, expectChar_spec lbrace (by decide) [' ', ' '] _ (by decide), Option.some_bind]
  have h1 : encAfterBrace m ++ rest
      = ['\n', ' ', ' ', ' ', ' '] ++ fieldChunk roleKeyChars m.role
        ++ (',' :: (['\n', ' ', ' ', ' ', ' '] ++ fieldChunk contentKeyChars m.content
          ++ (',' :: (['\n', ' ', ' ', ' ', ' '] ++ fieldChunk timestampKeyChars m.timestamp
            ++ (['\n', ' ', ' '] ++ rbrace :: rest))))) := by
    simp [encAfterBrace, List.append_assoc]
  rw [h1, parseFieldVal_enc roleKeyChars (by decide) m.role _ _ (by decide), Option.some_bind]
  rw [expectChar_cons ',' (by decide), Option.some_bind]
  rw [parseFieldVal_enc contentKeyChars (by decide) m.content _ _ (by decide), Option.some_bind]
  rw [expectChar_cons ',' (by decide), Option.some_bind]
  rw [parseFieldVal_enc timestampKeyChars (by decide) m.timestamp _ _ (by decide),
    Option.some_bind]
  rw [expectChar_spec rbrace (by decide) ['\n', ' ', ' '] _ (by decide)]
  rfl

theorem parseMessageObj_skipWs (cs : List Char) :
    parseMessageObj (skipWs cs) = parseMessageObj cs := by
  unfold parseMessageObj
  rw [expectChar_skipWs]

theorem parseItems_skipWs (fuel : Nat) (cs : List Char) :
    parseItems fuel (skipWs cs) = parseItems fuel cs := by
  cases fuel with
  | zero => rfl
  | succ f =>
    show (parseMessageObj (skipWs cs)).bind _ = (parseMessageObj cs).bind _
    rw [parseMessageObj_skipWs]

/-- Item-list round-trip: parsing the rendered comma-separated items up to
the closing bracket recovers the list. -/
theorem parseItems_enc : ∀ (msgs : List Message) (fuel : Nat), msgs ≠ [] →
    msgs.length ≤ fuel → ∀ rest,
    parseItems fuel (encItemsChars msgs ++ '\n' :: ']' :: rest) = some (msgs, rest) := by
  intro msgs
  induction msgs with
  | nil => intro fuel h; exact absurd rfl h
  | cons m ms ih =>
    intro fuel _ hlen rest
    obtain ⟨f, rfl⟩ : ∃ f, fuel = f + 1 := ⟨fuel - 1, by simp at hlen; omega⟩
    cases ms with
    | nil =>
      show (parseMessageObj (encItemsChars [m] ++ '\n' :: ']' :: rest)).bind _ = _
      have he : encItemsChars [m] = encMessageChars m := rfl
      rw [he, parseMessageObj_enc, Option.some_bind]
      show (match skipWs ('\n' :: ']' :: rest) with
        | [] => none
        | c :: r1 =>
          if c = ',' then (parseItems f r1).map (fun p => (m :: p.1, p.2))
          else if c = ']' then some ([m], r1)
          else none) = some ([m], rest)
      rw [skipWs_cons_of_ws _ (by decide), skipWs_cons_of_not _ (by decide)]
      rfl
    | cons m2 ms2 =>
      have he : encItemsChars (m :: m2 :: ms2) ++ '\n' :: ']' :: rest
          = encMessageChars m
            ++ (',' :: '\n' :: (encItemsChars (m2 :: ms2) ++ '\n' :: ']' :: rest)) := by
        simp [encItemsChars, List.append_assoc]
      rw [he]
      show (parseMessageObj (encMessageChars m
          ++ (',' :: '\n' :: (encItemsChars (m2 :: ms2) ++ '\n' :: ']' :: rest)))).bind _ = _
      rw [parseMessageObj_enc, Option.some_bind]
      show (match skipWs (',' :: '\n' :: (encItemsChars (m2 :: ms2) ++ '\n' :: ']' :: rest)) with
        | [] => none
        | c :: r1 =>
          if c = ',' then (parseItems f r1).map (fun p => (m :: p.1, p.2))
          else if c = ']' then some ([m], r1)
          else none) = some (m :: m2 :: ms2, rest)
      rw [skipWs_cons_of_not _ (by decide)]
      show (parseItems f ('\n' :: (encItemsChars (m2 :: ms2) ++ '\n' :: ']' :: rest))).map
          (fun p => (m :: p.1, p.2)) = some (m :: m2 :: ms2, rest)
      have hx : parseItems f ('\n' :: (encItemsChars (m2 :: ms2) ++ '\n' :: ']' :: rest))
          = parseItems f (encItemsChars (m2 :: ms2) ++ '\n' :: ']' :: rest) := by
        rw [← parseItems_skipWs f ('\n' :: (encItemsChars (m2 :: ms2) ++ '\n' :: ']' :: rest)),
          skipWs_cons_of_ws _ (by decide), parseItems_skipWs]
      rw [hx, ih f (by simp) (by simp at hlen ⊢; omega) rest]
      rfl


theorem encItemsChars_length (msgs : List Message) :
    msgs.length ≤ (encItemsChars msgs).length := by
  induction msgs with
  | nil => simp [encItemsChars]
  | cons m ms ih =>
    cases ms with
    | nil => simp [encItemsChars, encMessageChars]
    | cons m2 ms2 =>
      have he : encItemsChars (m :: m2 :: ms2)
          = encMessageChars m ++ ',' :: '\n' :: encItemsChars (m2 :: ms2) := rfl
      rw [he]
      simp only [List.length_append, List.length_cons, encMessageChars] at ih ⊢
      omega

theorem parseDocTail_cons (fuel : Nat) (cs : List Char) (c : Char) (r : List Char)
    (h : skipWs cs = c :: r) (hne : ¬ c = ']') :
    parseDocTail fuel cs = (parseItems fuel (c :: r)).bind (fun msr =>
      if skipWs msr.2 = [] then some msr.1 else none) := by
  unfold parseDocTail
  rw [h]
  show (if c = ']' then (if skipWs r = [] then some [] else none)
      else (parseItems fuel (c :: r)).bind (fun msr =>
        if skipWs msr.2 = [] then some msr.1 else none)) = _
  rw [if_neg hne]

theorem loads_dumps (messages : List Message) : loads (dumps messages) = some messages := by
  cases messages with
  | nil => rfl
  | cons m ms =>
    show parseDoc (dumpsChars (m :: ms)) = some (m :: ms)
    have hd : dumpsChars (m :: ms)
        = [] ++ '[' :: ('\n' :: (encItemsChars (m :: ms) ++ '\n' :: ']' :: [])) := by
      simp [dumpsChars]
    unfold parseDoc
    rw [hd, expectChar_spec '[' (by decide) [] _ (by simp), Option.some_bind]
    have hex : ∃ tail, encItemsChars (m :: ms) = ' ' :: ' ' :: lbrace :: tail := by
      cases ms with
      | nil => exact ⟨encAfterBrace m, by simp [encItemsChars, encMessageChars]⟩
      | cons m2 ms2 =>
        exact ⟨encAfterBrace m ++ ',' :: '\n' :: encItemsChars (m2 :: ms2),
          by simp [encItemsChars, encMessageChars]⟩
    obtain ⟨tail, htail⟩ := hex
    have hsk : skipWs ('\n' :: (encItemsChars (m :: ms) ++ '\n' :: ']' :: []))
        = lbrace :: (tail ++ '\n' :: ']' :: []) := by
      rw [htail]
      simp only [List.cons_append]
      rw [skipWs_cons_of_ws _ (by decide), skipWs_cons_of_ws _ (by decide),
        skipWs_cons_of_ws _ (by decide), skipWs_cons_of_not _ (by decide)]
    rw [parseDocTail_cons _ _ lbrace _ hsk (by decide)]
    have hsk2 : skipWs (encItemsChars (m :: ms) ++ '\n' :: ']' :: [])
        = lbrace :: (tail ++ '\n' :: ']' :: []) := by
      rw [htail]
      simp only [List.cons_append]
      rw [skipWs_cons_of_ws _ (by decide), skipWs_cons_of_ws _ (by decide),
        skipWs_cons_of_not _ (by decide)]
    rw [← hsk2, parseItems_skipWs,
      parseItems_enc (m :: ms) _ (by simp) ?_ [], Option.some_bind]
    · rfl
    · have h1 := encItemsChars_length (m :: ms)
      simp only [List.nil_append, List.length_cons, List.length_append] at h1 ⊢
      omega

/-! ## Storage and pipeline helper lemmas -/

theorem lookup_storePut (k v : String) (store : List (String × String)) :
    (storePut k v store).lookup k = some v := by
  simp [storePut, List.lookup]

theorem load_after_save (st : ServerState) (session_id : String)
    (messages : List Message) :
    load_conversation (save_conversation st session_id messages) session_id
      = .ok messages := by
  rcases st with ⟨useS3, s3, files⟩
  cases useS3 with
  | false =>
    simp only [save_conversation, load_conversation, Bool.false_eq_true, if_false,
      lookup_storePut, loads_dumps]
  | true =>
    simp only [save_conversation, load_conversation, if_true,
      s3_get_object, lookup_storePut, loads_dumps]

theorem chat_success (st : ServerState) (request : ChatRequest) (freshId : String)
    (result : ConverseResult) (t1 t2 : String) (conv : List Message) (reply : String)
    (hload : load_conversation st (resolve_session_id request freshId) = .ok conv)
    (hcall : call_bedrock conv request.message result = .ok reply) :
    chat st request freshId result t1 t2
      = (.ok ⟨reply, resolve_session_id request freshId⟩,
         save_conversation st (resolve_session_id request freshId)
           (conv ++ [⟨"user", request.message, t1⟩, ⟨"assistant", reply, t2⟩])) := by
  unfold chat
  rw [hload]
  show (match call_bedrock conv request.message result with
    | Except.error e => (Except.error e, st)
    | Except.ok assistant_reply =>
      (Except.ok (⟨assistant_reply, resolve_session_id request freshId⟩ : ChatResponse),
       save_conversation st (resolve_session_id request freshId)
         (conv ++ [(⟨"user", request.message, t1⟩ : Message),
                   (⟨"assistant", assistant_reply, t2⟩ : Message)]))) = _
  rw [hcall]

theorem chat_bedrock_error (st : ServerState) (request : ChatRequest) (freshId : String)
    (result : ConverseResult) (t1 t2 : String) (conv : List Message) (e : PyExc)
    (hload : load_conversation st (resolve_session_id request freshId) = .ok conv)
    (hcall : call_bedrock conv request.message result = .error e) :
    chat st request freshId result t1 t2 = (.error e, st) := by
  unfold chat
  rw [hload]
  show (match call_bedrock conv request.message result with
    | Except.error e => (Except.error e, st)
    | Except.ok assistant_reply =>
      (Except.ok (⟨assistant_reply, resolve_session_id request freshId⟩ : ChatResponse),
       save_conversation st (resolve_session_id request freshId)
         (conv ++ [(⟨"user", request.message, t1⟩ : Message),
                   (⟨"assistant", assistant_reply, t2⟩ : Message)]))) = _
  rw [hcall]

/-! ## Reply-extraction failures are never the uniform HTTP kind -/

theorem jGet_not_http (v : JVal) (k : String) (e : PyExc) (h : jGet v k = .error e) :
    e.isHttpException = false := by
  unfold jGet at h
  repeat' split at h
  all_goals first
    | exact (Except.noConfusion h)
    | (injection h with h2; subst h2; rfl)

theorem jIndex_not_http (v : JVal) (i : Nat) (e : PyExc) (h : jIndex v i = .error e) :
    e.isHttpException = false := by
  unfold jIndex at h
  repeat' split at h
  all_goals first
    | exact (Except.noConfusion h)
    | (injection h with h2; subst h2; rfl)

theorem jAsString_not_http (v : JVal) (e : PyExc) (h : jAsString v = .error e) :
    e.isHttpException = false := by
  unfold jAsString at h
  repeat' split at h
  all_goals first
    | exact (Except.noConfusion h)
    | (injection h with h2; subst h2; rfl)

theorem extract_reply_not_http (response : JVal) (e : PyExc)
    (h : extract_reply response = .error e) : e.isHttpException = false := by
  unfold extract_reply at h
  split at h
  · injection h with h2; subst h2; exact jGet_not_http _ _ _ (by assumption)
  split at h
  · injection h with h2; subst h2; exact jGet_not_http _ _ _ (by assumption)
  split at h
  · injection h with h2; subst h2; exact jGet_not_http _ _ _ (by assumption)
  split at h
  · injection h with h2; subst h2; exact jIndex_not_http _ _ _ (by assumption)
  split at h
  · injection h with h2; subst h2; exact jGet_not_http _ _ _ (by assumption)
  · exact jAsString_not_http _ _ h

/-! ## The claims -/

/-- C1: if the model invocation fails for a chat turn, the whole server
state — in particular the persisted conversation log for the session id —
is byte-identical to its state before the call: neither the user turn nor
any assistant turn is appended or saved, and the caller sees the failure. -/
theorem chat_model_failure_leaves_state_unchanged
    (st : ServerState) (request : ChatRequest) (freshId : String)
    (result : ConverseResult) (t1 t2 : String) (conv : List Message) (e : PyExc)
    (hload : load_conversation st (resolve_session_id request freshId) = .ok conv)
    (hcall : call_bedrock conv request.message result = .error e) :
    chat st request freshId result t1 t2 = (.error e, st) :=
  chat_bedrock_error st request freshId result t1 t2 conv e hload hcall

theorem chat_model_failure_leaves_state_unchanged_witness :
    load_conversation emptyLocalState (resolve_session_id ⟨"hi", some "s1"⟩ "f") = .ok []
    ∧ call_bedrock [] "hi" (.clientError "ThrottlingException" "Rate exceeded")
        = .error (.httpException 500 (clientErrorStr "ThrottlingException" "Rate exceeded"))
    ∧ chat emptyLocalState ⟨"hi", some "s1"⟩ "f"
        (.clientError "ThrottlingException" "Rate exceeded") "t1" "t2"
        = (.error (.httpException 500 (clientErrorStr "ThrottlingException" "Rate exceeded")),
           emptyLocalState) :=
  ⟨rfl, rfl,
   chat_model_failure_leaves_state_unchanged emptyLocalState ⟨"hi", some "s1"⟩ "f"
     (.clientError "ThrottlingException" "Rate exceeded") "t1" "t2" [] _ rfl rfl⟩

/-- C2: the context assembler sends at most the 20 most recent prior turns,
oldest-first (a suffix of the stored log); for a 25-turn log the assembled
request is the system instruction, the most recent 20 prior turns in
oldest-first order, then the new user turn — 22 entries — and a successful
turn persists the full untruncated log plus the two new turns. -/
theorem context_window_twenty_turns :
    (∀ (conversation : List Message) (user_message : String),
      (converse_messages conversation user_message).length ≤ 21
      ∧ ∃ k, converse_messages conversation user_message
          = (conversation.drop k).map (fun msg => ⟨msg.role, [msg.content]⟩)
            ++ [⟨"user", [user_message]⟩])
    ∧ (∀ (conversation : List Message) (user_message : String),
        conversation.length = 25 →
        assembled_request conversation user_message
          = .system prompt :: ((conversation.drop 5).map
              (fun msg => RequestEntry.msg ⟨msg.role, [msg.content]⟩)
            ++ [.msg ⟨"user", [user_message]⟩])
        ∧ (assembled_request conversation user_message).length = 22)
    ∧ (∀ (st : ServerState) (request : ChatRequest) (freshId : String)
        (result : ConverseResult) (t1 t2 : String) (conv : List Message) (reply : String),
        load_conversation st (resolve_session_id request freshId) = .ok conv →
        call_bedrock conv request.message result = .ok reply →
        load_conversation (chat st request freshId result t1 t2).2
            (resolve_session_id request freshId)
          = .ok (conv ++ [⟨"user", request.message, t1⟩, ⟨"assistant", reply, t2⟩])) := by
  refine ⟨?_, ?_, ?_⟩
  · intro conversation user_message
    constructor
    · simp only [converse_messages, List.length_append, List.length_map,
        List.length_drop, List.length_singleton]
      omega
    · exact ⟨conversation.length - 20, rfl⟩
  · intro conversation user_message h
    constructor
    · simp [assembled_request, converse_messages, h, List.map_append, Function.comp_def]
    · simp [assembled_request, converse_messages, h]
  · intro st request freshId result t1 t2 conv reply hload hcall
    rw [chat_success st request freshId result t1 t2 conv reply hload hcall]
    exact load_after_save _ _ _

theorem context_window_twenty_turns_witness :
    testLog.length = 25
    ∧ (assembled_request testLog "Hi").length = 22
    ∧ load_conversation (chat (save_conversation emptyLocalState "s" testLog)
          ⟨"Hi", some "s"⟩ "f" (.success (novaResponse "ok")) "t1" "t2").2
          (resolve_session_id ⟨"Hi", some "s"⟩ "f")
        = .ok (testLog ++ [⟨"user", "Hi", "t1"⟩, ⟨"assistant", "ok", "t2"⟩]) :=
  ⟨rfl,
   (context_window_twenty_turns.2.1 testLog "Hi" rfl).2,
   context_window_twenty_turns.2.2 (save_conversation emptyLocalState "s" testLog)
     ⟨"Hi", some "s"⟩ "f" (.success (novaResponse "ok")) "t1" "t2" testLog "ok"
     (load_after_save emptyLocalState "s" testLog) rfl⟩

/-- C3: for every session id and turn sequence, in both storage variants,
loading immediately after saving returns exactly the saved turns — order,
role, content and timestamp preserved byte-for-byte, unicode included. -/
theorem save_load_roundtrip (useS3 : Bool) (s3 files : List (String × String))
    (session_id : String) (messages : List Message) :
    load_conversation (save_conversation ⟨useS3, s3, files⟩ session_id messages) session_id
      = .ok messages :=
  load_after_save _ _ _

/-- C4 counterexample: a malformed converse response (no `output` field) is
not re-raised as the uniform `HTTPException` kind — the `KeyError` from the
extraction escapes `except ClientError` unnormalized. -/
theorem call_bedrock_malformed_not_uniform :
    call_bedrock [] "hi" (.success (JVal.obj [])) = .error (.keyError "output")
    ∧ PyExc.isHttpException (.keyError "output") = false :=
  ⟨rfl, rfl⟩

/-- C4 amended: a `ClientError` from the converse transport (auth, quota,
service faults) is caught and re-raised as the single uniform
`HTTPException(500, str(e))` carrying the transport's diagnostic message,
with no retries; but a failure to extract the reply from a malformed
response propagates as its own unnormalized exception. -/
theorem call_bedrock_clienterror_uniform :
    (∀ (conversation : List Message) (user_message code msg : String),
      call_bedrock conversation user_message (.clientError code msg)
        = .error (.httpException 500 (clientErrorStr code msg)))
    ∧ (∀ (conversation : List Message) (user_message : String) (response : JVal) (e : PyExc),
        call_bedrock conversation user_message (.success response) = .error e →
        e.isHttpException = false) := by
  constructor
  · intro conversation user_message code msg; rfl
  · intro conversation user_message response e h
    exact extract_reply_not_http response e h

theorem call_bedrock_clienterror_uniform_witness :
    call_bedrock [] "m" (.clientError "AccessDenied" "denied")
      = .error (.httpException 500 (clientErrorStr "AccessDenied" "denied"))
    ∧ call_bedrock [] "m" (.success (JVal.obj [])) = .error (.keyError "output")
    ∧ PyExc.isHttpException (.keyError "output") = false :=
  ⟨call_bedrock_clienterror_uniform.1 [] "m" "AccessDenied" "denied", rfl,
   call_bedrock_clienterror_uniform.2 [] "m" (JVal.obj []) (.keyError "output") rfl⟩

/-- C5: a successful chat turn appends exactly two turns to the persisted
log — the user turn with the request message, then the assistant turn with
the reply — each stamped with the corresponding clock reading, and when the
clock readings do not precede the stored timestamps the resulting log's
timestamps are non-decreasing. -/
theorem chat_success_appends_user_then_assistant
    (st : ServerState) (request : ChatRequest) (freshId : String)
    (result : ConverseResult) (t1 t2 : String) (conv : List Message) (reply : String)
    (hload : load_conversation st (resolve_session_id request freshId) = .ok conv)
    (hcall : call_bedrock conv request.message result = .ok reply)
    (hchron : Chronological conv)
    (hle : ∀ msg ∈ conv, msg.timestamp ≤ t1) (ht : t1 ≤ t2) :
    (chat st request freshId result t1 t2).1
      = .ok ⟨reply, resolve_session_id request freshId⟩
    ∧ load_conversation (chat st request freshId result t1 t2).2
          (resolve_session_id request freshId)
        = .ok (conv ++ [⟨"user", request.message, t1⟩, ⟨"assistant", reply, t2⟩])
    ∧ Chronological (conv ++ [⟨"user", request.message, t1⟩, ⟨"assistant", reply, t2⟩]) := by
  rw [chat_success st request freshId result t1 t2 conv reply hload hcall]
  refine ⟨rfl, load_after_save _ _ _, ?_⟩
  unfold Chronological at hchron ⊢
  rw [List.chain'_append]
  refine ⟨hchron, List.chain'_cons.mpr ⟨ht, List.chain'_singleton _⟩, ?_⟩
  intro x hx y hy
  simp only [List.head?_cons, Option.mem_def, Option.some.injEq] at hy
  subst hy
  exact hle x (List.mem_of_mem_getLast? hx)

theorem chat_success_appends_user_then_assistant_witness :
    Chronological ([] : List Message)
    ∧ ("t" : String) ≤ "t"
    ∧ ((chat emptyLocalState ⟨"Hi", some "w5"⟩ "f" (.success (novaResponse "ok")) "t" "t").1
        = .ok ⟨"ok", "w5"⟩
      ∧ load_conversation
          (chat emptyLocalState ⟨"Hi", some "w5"⟩ "f" (.success (novaResponse "ok")) "t" "t").2
          (resolve_session_id ⟨"Hi", some "w5"⟩ "f")
        = .ok [⟨"user", "Hi", "t"⟩, ⟨"assistant", "ok", "t"⟩]
      ∧ Chronological [⟨"user", "Hi", "t"⟩, ⟨"assistant", "ok", "t"⟩]) :=
  ⟨List.chain'_nil, le_refl _,
   chat_success_appends_user_then_assistant emptyLocalState ⟨"Hi", some "w5"⟩ "f"
     (.success (novaResponse "ok")) "t" "t" [] "ok" rfl rfl List.chain'_nil
     (by simp) (le_refl _)⟩

/-- C6: loading a session id that was never written returns the empty
sequence and never an error, in the local variant (missing file) and the
remote variant (missing key), and the history endpoint likewise returns an
empty sequence for an unknown id. -/
theorem load_unknown_session_empty :
    (∀ (s3 files : List (String × String)) (session_id : String),
      files.lookup (local_file_path session_id) = none →
      load_conversation ⟨false, s3, files⟩ session_id = .ok []
      ∧ get_conversation ⟨false, s3, files⟩ session_id = .ok ⟨session_id, []⟩)
    ∧ (∀ (s3 files : List (String × String)) (session_id : String),
      s3.lookup (get_memory_path session_id) = none →
      load_conversation ⟨true, s3, files⟩ session_id = .ok []
      ∧ get_conversation ⟨true, s3, files⟩ session_id = .ok ⟨session_id, []⟩) := by
  constructor
  · intro s3 files session_id h
    have hl : load_conversation ⟨false, s3, files⟩ session_id = .ok [] := by
      simp only [load_conversation, Bool.false_eq_true, if_false, h]
    exact ⟨hl, by simp only [get_conversation, hl]⟩
  · intro s3 files session_id h
    have hl : load_conversation ⟨true, s3, files⟩ session_id = .ok [] := by
      simp only [load_conversation, if_true, s3_get_object, h]
    exact ⟨hl, by simp only [get_conversation, hl]⟩

theorem load_unknown_session_empty_witness :
    List.lookup (local_file_path "nobody") ([] : List (String × String)) = none
    ∧ load_conversation ⟨false, [], []⟩ "nobody" = .ok []
    ∧ get_conversation ⟨true, [], []⟩ "nobody" = .ok ⟨"nobody", []⟩ :=
  ⟨rfl, (load_unknown_session_empty.1 [] [] "nobody" rfl).1,
   (load_unknown_session_empty.2 [] [] "nobody" rfl).2⟩

/-- C7 counterexample: the inbound request does not require a non-empty
message — the empty string passes validation, the turn succeeds, and a user
turn with empty content is persisted, violating the claimed invariant. -/
theorem empty_message_accepted_and_persisted :
    mkChatRequest (some "") none = some ⟨"", none⟩
    ∧ (chat emptyLocalState ⟨"", none⟩ "sid0" (.success (novaResponse "hello")) "t1" "t2").1
        = .ok ⟨"hello", "sid0"⟩
    ∧ load_conversation
        (chat emptyLocalState ⟨"", none⟩ "sid0" (.success (novaResponse "hello")) "t1" "t2").2
        "sid0"
        = .ok [⟨"user", "", "t1"⟩, ⟨"assistant", "hello", "t2"⟩] :=
  ⟨rfl, rfl,
   load_after_save emptyLocalState "sid0" [⟨"user", "", "t1"⟩, ⟨"assistant", "hello", "t2"⟩]⟩

/-- C7 amended: the request requires the `message` field to be present (a
missing field is a validation error) but places no non-emptiness constraint
on its text; the persisted user turn's content equals the request message
verbatim — so it may be empty — and empty model replies are likewise passed
through unmodified. -/
theorem message_field_required_text_passthrough :
    (∀ session_id, mkChatRequest none session_id = none)
    ∧ (∀ m session_id, mkChatRequest (some m) session_id = some ⟨m, session_id⟩)
    ∧ (∀ (st : ServerState) (request : ChatRequest) (freshId : String)
        (result : ConverseResult) (t1 t2 : String) (conv : List Message) (reply : String),
        load_conversation st (resolve_session_id request freshId) = .ok conv →
        call_bedrock conv request.message result = .ok reply →
        load_conversation (chat st request freshId result t1 t2).2
            (resolve_session_id request freshId)
          = .ok (conv ++ [⟨"user", request.message, t1⟩, ⟨"assistant", reply, t2⟩])) := by
  refine ⟨fun _ => rfl, fun _ _ => rfl, ?_⟩
  intro st request freshId result t1 t2 conv reply hload hcall
  rw [chat_success st request freshId result t1 t2 conv reply hload hcall]
  exact load_after_save _ _ _

theorem message_field_required_text_passthrough_witness :
    mkChatRequest (some "") (some "k9") = some ⟨"", some "k9"⟩
    ∧ load_conversation
        (chat emptyLocalState ⟨"", some "k9"⟩ "f" (.success (novaResponse "")) "t1" "t2").2
        (resolve_session_id ⟨"", some "k9"⟩ "f")
        = .ok [⟨"user", "", "t1"⟩, ⟨"assistant", "", "t2"⟩] :=
  ⟨message_field_required_text_passthrough.2.1 "" (some "k9"),
   message_field_required_text_passthrough.2.2 emptyLocalState ⟨"", some "k9"⟩ "f"
     (.success (novaResponse "")) "t1" "t2" [] "" rfl rfl⟩

/-- C8: with an empty conversation log and user message "Hi", the assembled
model request is exactly the system instruction followed by one user turn
with content "Hi" — 2 entries. -/
theorem assembled_request_empty_history :
    (∀ user_message : String, assembled_request [] user_message
        = [.system prompt, .msg ⟨"user", [user_message]⟩])
    ∧ assembled_request [] "Hi" = [.system prompt, .msg ⟨"user", ["Hi"]⟩]
    ∧ (assembled_request [] "Hi").length = 2 :=
  ⟨fun _ => rfl, rfl, rfl⟩

/-- C9: the code evaluated at the failing input.  The claim (and the
function's own docstring, "Safely load LinkedIn PDF text without crashing
the app") says the loader never raises; but `except FileNotFoundError`
catches only the missing-file case, so a present-but-corrupt, empty, or
unreadable PDF's reader failure propagates out of `load_linkedin_text` —
aborting startup at import.  The per-page extraction path and the two
documented placeholders do behave as claimed. -/
theorem load_linkedin_text_reader_failure_raises :
    load_linkedin_text (.readError "Cannot read an empty file")
      = .error (.pdfReadError "Cannot read an empty file")
    ∧ load_linkedin_text .fileNotFound = .ok "LinkedIn profile not available"
    ∧ load_linkedin_text (.pages [.raised "bbox", .extracted ""])
        = .ok "LinkedIn PDF contains unreadable text."
    ∧ load_linkedin_text (.pages [.raised "bbox", .extracted "Profile"]) = .ok "Profile"
    ∧ (∀ ps, ∃ s, load_linkedin_text (.pages ps) = .ok s) := by
  refine ⟨rfl, rfl, rfl, rfl, ?_⟩
  intro ps
  by_cases h : extract_pages_text ps = ""
  · exact ⟨"LinkedIn PDF contains unreadable text.", by simp [load_linkedin_text, h]⟩
  · exact ⟨extract_pages_text ps, by simp [load_linkedin_text, h]⟩

/-- C10: an absent or empty-string session id resolves to the freshly
generated UUID, and on success the session id in the response equals the
key under which the conversation was loaded and saved. -/
theorem session_id_generation_and_consistency :
    (∀ (message freshId : String),
      resolve_session_id ⟨message, none⟩ freshId = freshId)
    ∧ (∀ (message freshId : String),
      resolve_session_id ⟨message, some ""⟩ freshId = freshId)
    ∧ (∀ (st : ServerState) (request : ChatRequest) (freshId : String)
        (result : ConverseResult) (t1 t2 : String) (resp : ChatResponse)
        (st2 : ServerState),
        chat st request freshId result t1 t2 = (.ok resp, st2) →
        resp.session_id = resolve_session_id request freshId
        ∧ ∃ conv reply,
            load_conversation st (resolve_session_id request freshId) = .ok conv
            ∧ call_bedrock conv request.message result = .ok reply
            ∧ st2 = save_conversation st (resolve_session_id request freshId)
                (conv ++ [⟨"user", request.message, t1⟩, ⟨"assistant", reply, t2⟩])) := by
  refine ⟨fun _ _ => rfl, fun _ _ => rfl, ?_⟩
  intro st request freshId result t1 t2 resp st2 h
  unfold chat at h
  split at h
  · exact absurd (congrArg Prod.fst h) (by simp)
  · split at h
    · exact absurd (congrArg Prod.fst h) (by simp)
    · rw [Prod.mk.injEq] at h
      obtain ⟨h1, h2⟩ := h
      injection h1 with h1
      subst h1
      subst h2
      exact ⟨rfl, _, _, by assumption, by assumption, rfl⟩

theorem session_id_generation_and_consistency_witness :
    resolve_session_id ⟨"Hi", none⟩ "fresh" = "fresh"
    ∧ (⟨"ok", "fresh"⟩ : ChatResponse).session_id = resolve_session_id ⟨"Hi", none⟩ "fresh" :=
  ⟨rfl,
   (session_id_generation_and_consistency.2.2 emptyLocalState ⟨"Hi", none⟩ "fresh"
     (.success (novaResponse "ok")) "t1" "t2" ⟨"ok", "fresh"⟩
     (save_conversation emptyLocalState "fresh"
       [⟨"user", "Hi", "t1"⟩, ⟨"assistant", "ok", "t2"⟩]) rfl).1⟩

end DigitalBot
